import Mathlib

/-
  Verification of the SMPP PDU codec (rust-smpp).

  The development shallowly embeds src/pdu/pdu.rs, src/pdu/operations/bind_transmitter.rs
  and src/pdu/operations/submit_sm_resp.rs.  Byte streams are lists of natural numbers
  (each byte below 256 on real inputs); the bounded sub-view produced by Read::take is a
  pair of a remaining budget and the remaining input.  Machine integers are naturals with
  explicit reduction modulo 2^32 at the one place where u32 arithmetic can wrap.
  Components of the repository whose sources are not available (the primitive formats,
  the error type, the framing check, the length validator and three operation modules)
  are modelled from the specification; each such definition carries a doc comment
  starting with: Modelled from the spec.
-/

namespace Smpp

/-- Big-endian 32-bit value assembled from four bytes. -/
def word32 (a b c d : Nat) : Nat := ((a * 256 + b) * 256 + c) * 256 + d

/-- Big-endian four-byte encoding of an unsigned 32-bit value. -/
def toBytes4 (n : Nat) : List Nat :=
  [n / 16777216 % 256, n / 65536 % 256, n / 256 % 256, n % 256]

/-- Modelled from the spec: Integer4::read on the raw (not yet bounded) byte source,
used for the leading command_length field.  Consumes exactly four bytes, big-endian. -/
def readU32 : List Nat → Option (Nat × List Nat)
  | a :: b :: c :: d :: rest => some (word32 a b c d, rest)
  | _ => none

/-- Big-endian 32-bit value of the first four bytes of a buffer, zero when the buffer
is shorter than four bytes.  Used to state what the framing check reads. -/
def u32At (bs : List Nat) : Nat :=
  match bs with
  | a :: b :: c :: d :: _ => word32 a b c d
  | _ => 0

/-- Modelled from the spec: the closed error-kind taxonomy of pduparseerror.rs. -/
inductive PduParseErrorKind where
  | lengthTooShort (length : Nat)
  | lengthTooLong (length : Nat)
  | unknownCommandId
  | notEnoughBytes
  | stringTooLong (maxLen : Nat)
  | stringDoesNotEndWithZeroByte
  | stringIsNotAscii (validUpTo : Nat)
  | statusIsNotZero
  | bodyNotAllowedWhenStatusIsNotZero
  | lengthLongerThanPdu (length : Nat)
  | otherIoError
deriving DecidableEq

/-- Modelled from the spec: PduParseError accumulates a kind plus the optional header
context fields and the optional field name; absent fields render as UNKNOWN. -/
structure PduParseError where
  kind : PduParseErrorKind
  command_id : Option Nat
  command_status : Option Nat
  sequence_number : Option Nat
  field_name : Option String
deriving DecidableEq

/-- Modelled from the spec: a freshly detected error has no context fields set. -/
def PduParseError.new (k : PduParseErrorKind) : PduParseError :=
  ⟨k, none, none, none, none⟩

/-- Keeps an already known value, otherwise adopts the supplied one. -/
def fillOpt {α : Type} (cur newVal : Option α) : Option α :=
  match cur with
  | some x => some x
  | none => newVal

/-- Modelled from the spec: into_with_header fills the three header context fields
only where they are currently absent. -/
def PduParseError.intoWithHeader (e : PduParseError)
    (cid cst seq : Option Nat) : PduParseError :=
  { e with
    command_id := fillOpt e.command_id cid
    command_status := fillOpt e.command_status cst
    sequence_number := fillOpt e.sequence_number seq }

/-- Modelled from the spec: into_with_field_name records the offending field name
where it is not already known more precisely by an inner layer. -/
def PduParseError.intoWithFieldName (e : PduParseError) (name : String) : PduParseError :=
  { e with field_name := fillOpt e.field_name (some name) }

/-- Bounded sub-view over the byte source: the Read::take budget together with the
remaining bytes of the underlying stream. -/
structure BSrc where
  budget : Nat
  rest : List Nat
deriving DecidableEq

/-- Decidable equality of fallible results, used to evaluate the parsers on
concrete inputs. -/
instance {ε α : Type} [DecidableEq ε] [DecidableEq α] : DecidableEq (Except ε α) :=
  fun a b =>
    match a, b with
    | .ok x, .ok y =>
      if h : x = y then .isTrue (by rw [h]) else .isFalse (by intro hc; cases hc; exact h rfl)
    | .error x, .error y =>
      if h : x = y then .isTrue (by rw [h]) else .isFalse (by intro hc; cases hc; exact h rfl)
    | .ok _, .error _ => .isFalse (by intro hc; cases hc)
    | .error _, .ok _ => .isFalse (by intro hc; cases hc)

/-- Reads one byte from the bounded sub-view: yields nothing once the budget is
exhausted or the underlying stream is empty. -/
def readByte (s : BSrc) : Option Nat × BSrc :=
  if s.budget = 0 then (none, s)
  else
    match s.rest with
    | [] => (none, s)
    | x :: xs => (some x, ⟨s.budget - 1, xs⟩)

/-- Reads exactly n bytes from the bounded sub-view, consuming what was available
when it fails early, as read_exact over a Take does. -/
def readBytesN : Nat → BSrc → Option (List Nat) × BSrc
  | 0, s => (some [], s)
  | n + 1, s =>
    match readByte s with
    | (none, s1) => (none, s1)
    | (some x, s1) =>
      match readBytesN n s1 with
      | (none, s2) => (none, s2)
      | (some xs, s2) => (some (x :: xs), s2)

/-- Modelled from the spec: Integer4::read on the bounded sub-view.  Consumes exactly
four bytes big-endian, failing with an end-of-input flavoured error otherwise. -/
def readInt4 (s : BSrc) : Except PduParseError Nat × BSrc :=
  match readBytesN 4 s with
  | (some l, s1) => (.ok (l.foldl (fun acc x => acc * 256 + x) 0), s1)
  | (none, s1) => (.error (PduParseError.new .notEnoughBytes), s1)

/-- Modelled from the spec: Integer1::read consumes exactly one byte. -/
def readInt1 (s : BSrc) : Except PduParseError Nat × BSrc :=
  match readByte s with
  | (some x, s1) => (.ok x, s1)
  | (none, s1) => (.error (PduParseError.new .notEnoughBytes), s1)

/-- Modelled from the spec: the byte-by-byte loop of COctetString::read.  Reads at most
maxLen bytes; a zero byte ends the string, a non-ASCII byte fails with the offset of the
first bad byte, exhausting the budget without a zero byte fails as too long, and end of
input before a terminator fails as an unterminated string (the behaviour pinned down by
the tests in pdu.rs). -/
def cOctetReadAux (maxLen : Nat) : Nat → Nat → BSrc → Except PduParseError (List Nat) × BSrc
  | 0, _, s => (.error (PduParseError.new (.stringTooLong maxLen)), s)
  | fuel + 1, off, s =>
    match readByte s with
    | (none, s1) => (.error (PduParseError.new .stringDoesNotEndWithZeroByte), s1)
    | (some x, s1) =>
      if x = 0 then (.ok [], s1)
      else if 128 ≤ x then (.error (PduParseError.new (.stringIsNotAscii off)), s1)
      else
        match cOctetReadAux maxLen fuel (off + 1) s1 with
        | (.ok v, s2) => (.ok (x :: v), s2)
        | (.error e, s2) => (.error e, s2)

/-- Modelled from the spec: COctetString::read with a per-field maximum total encoded
length (terminator included). -/
def cOctetRead (maxLen : Nat) (s : BSrc) : Except PduParseError (List Nat) × BSrc :=
  cOctetReadAux maxLen maxLen 0 s

/-- Modelled from the spec: an exact-length raw octet string read; the source ending
early surfaces as the distinct non-protocol I/O error category. -/
def octetRead (n : Nat) (s : BSrc) : Except PduParseError (List Nat) × BSrc :=
  match readBytesN n s with
  | (some l, s1) => (.ok l, s1)
  | (none, s1) => (.error (PduParseError.new .otherIoError), s1)

/-- In-memory C-octet string: the bytes strictly before the terminating zero byte. -/
structure COctetString where
  value : List Nat
deriving DecidableEq

/-- Index of the first non-ASCII byte of a list, if any. -/
def firstBadAscii : List Nat → Nat → Option Nat
  | [], _ => none
  | x :: xs, i => if 128 ≤ x then some i else firstBadAscii xs (i + 1)

/-- Modelled from the spec: COctetString::from_str fails on a non-ASCII byte
(identifying the first offending index) or when the encoded length including the
terminator would exceed the per-field maximum. -/
def COctetString.from_str (v : List Nat) (maxLen : Nat) : Except PduParseError COctetString :=
  match firstBadAscii v 0 with
  | some i => .error (PduParseError.new (.stringIsNotAscii i))
  | none =>
    if maxLen < v.length + 1 then .error (PduParseError.new (.stringTooLong maxLen))
    else .ok ⟨v⟩

/-- Modelled from the spec: COctetString::write emits the string bytes followed by a
single zero byte. -/
def COctetString.write (c : COctetString) : List Nat := c.value ++ [0]

/-- Annotates a failed primitive read with the name of the field being parsed,
mirroring fld of pduparseerror.rs. -/
def fld {α : Type} (name : String) (r : Except PduParseError α × BSrc) :
    Except PduParseError α × BSrc :=
  match r with
  | (.error e, s) => (.error (e.intoWithFieldName name), s)
  | (.ok a, s) => (.ok a, s)

/-- Sequencing of fallible state-threading reads, mirroring the question-mark
operator of the Rust parsers. -/
def pstep {α β : Type} (r : Except PduParseError α × BSrc)
    (f : α → BSrc → Except PduParseError β × BSrc) : Except PduParseError β × BSrc :=
  match r with
  | (.ok a, s) => f a s
  | (.error e, s) => (.error e, s)

/-- Applies a pure function to the result of a fallible state-threading read. -/
def pmap {α β : Type} (r : Except PduParseError α × BSrc) (f : α → β) :
    Except PduParseError β × BSrc :=
  match r with
  | (.ok a, s) => (.ok (f a), s)
  | (.error e, s) => (.error e, s)

/-- Modelled from the spec: validate_command_length enforces the protocol bounds
8 <= command_length <= 70000 (the messages rendered by the tests in pdu.rs show
minimum 8 and maximum 70000). -/
def validate_command_length (cl : Nat) : Except PduParseError Unit :=
  if cl < 8 then .error (PduParseError.new (.lengthTooShort cl))
  else if 70000 < cl then .error (PduParseError.new (.lengthTooLong cl))
  else .ok ()

/-- Header-field read of pdu.rs: an Integer4 read whose failure is replaced by the
command-length bounds error when the declared length is itself invalid, and otherwise
annotated with the field name. -/
def hfld (name : String) (s : BSrc) (cl : Nat) : Except PduParseError Nat × BSrc :=
  match readInt4 s with
  | (.ok v, s1) => (.ok v, s1)
  | (.error e, s1) =>
    match validate_command_length cl with
    | .error le => (.error le, s1)
    | .ok _ => (.error (e.intoWithFieldName name), s1)

/-- Command id of bind_transmitter, from bind_transmitter.rs. -/
def BIND_TRANSMITTER : Nat := 0x00000002

/-- Modelled from the spec: command id of bind_transmitter_resp. -/
def BIND_TRANSMITTER_RESP : Nat := 0x80000002

/-- Modelled from the spec: command id of generic_nack. -/
def GENERIC_NACK : Nat := 0x80000000

/-- Modelled from the spec: command id of submit_sm (also a literal in parse_body). -/
def SUBMIT_SM : Nat := 0x00000004

/-- Modelled from the spec: command id of submit_sm_resp (also a literal in parse_body). -/
def SUBMIT_SM_RESP : Nat := 0x80000004

/-- Body of a bind_transmitter PDU, from bind_transmitter.rs. -/
structure BindTransmitterPdu where
  system_id : COctetString
  password : COctetString
  system_type : COctetString
  interface_version : Nat
  addr_ton : Nat
  addr_npi : Nat
  address_range : COctetString
deriving DecidableEq

/-- The seven field reads of BindTransmitterPdu::parse, in source order. -/
def BindTransmitterPdu.readFields (s : BSrc) : Except PduParseError BindTransmitterPdu × BSrc :=
  pstep (fld "system_id" (cOctetRead 16 s)) fun system_id s =>
  pstep (fld "password" (cOctetRead 9 s)) fun password s =>
  pstep (fld "system_type" (cOctetRead 13 s)) fun system_type s =>
  pstep (fld "interface_version" (readInt1 s)) fun interface_version s =>
  pstep (fld "addr_ton" (readInt1 s)) fun addr_ton s =>
  pstep (fld "addr_npi" (readInt1 s)) fun addr_npi s =>
  pstep (fld "address_range" (cOctetRead 41 s)) fun address_range s =>
  (.ok ⟨⟨system_id⟩, ⟨password⟩, ⟨system_type⟩, interface_version, addr_ton, addr_npi,
    ⟨address_range⟩⟩, s)

/-- BindTransmitterPdu::parse: the seven fields are consumed first, then a nonzero
command_status is rejected against the command_status field. -/
def BindTransmitterPdu.parse (command_status : Nat) (s : BSrc) :
    Except PduParseError BindTransmitterPdu × BSrc :=
  pstep (BindTransmitterPdu.readFields s) fun body s =>
    if command_status ≠ 0 then
      (.error ((PduParseError.new .statusIsNotZero).intoWithFieldName "command_status"), s)
    else (.ok body, s)

/-- BindTransmitterPdu::new, validating each string field under its maximum. -/
def BindTransmitterPdu.new (system_id password system_type : List Nat)
    (interface_version addr_ton addr_npi : Nat) (address_range : List Nat) :
    Except PduParseError BindTransmitterPdu :=
  match COctetString.from_str system_id 16 with
  | .error e => .error (e.intoWithFieldName "system_id")
  | .ok si =>
    match COctetString.from_str password 9 with
    | .error e => .error (e.intoWithFieldName "password")
    | .ok pw =>
      match COctetString.from_str system_type 13 with
      | .error e => .error (e.intoWithFieldName "system_type")
      | .ok st =>
        match COctetString.from_str address_range 41 with
        | .error e => .error (e.intoWithFieldName "address_range")
        | .ok ar => .ok ⟨si, pw, st, interface_version, addr_ton, addr_npi, ar⟩

/-- Body of a submit_sm_resp PDU, from submit_sm_resp.rs: message_id is None exactly
for error responses. -/
structure SubmitSmRespPdu where
  message_id : Option COctetString
deriving DecidableEq

/-- SubmitSmRespPdu::parse: with a zero command_status the message_id is required; with
a nonzero command_status the parser probes for one more byte and fails if any byte can
be obtained, succeeding with an absent message_id on an exhausted source. -/
def SubmitSmRespPdu.parse (command_status : Nat) (s : BSrc) :
    Except PduParseError SubmitSmRespPdu × BSrc :=
  if command_status = 0 then
    match fld "message_id" (cOctetRead 65 s) with
    | (.ok v, s1) => (.ok ⟨some ⟨v⟩⟩, s1)
    | (.error e, s1) => (.error e, s1)
  else
    match readByte s with
    | (some _, s1) => (.error (PduParseError.new .bodyNotAllowedWhenStatusIsNotZero), s1)
    | (none, s1) => (.ok ⟨none⟩, s1)

/-- SubmitSmRespPdu::new with a validated message_id. -/
def SubmitSmRespPdu.new (message_id : List Nat) : Except PduParseError SubmitSmRespPdu :=
  (COctetString.from_str message_id 65).map fun c => ⟨some c⟩

/-- SubmitSmRespPdu::new_error: an error response carries no message_id. -/
def SubmitSmRespPdu.new_error : SubmitSmRespPdu := ⟨none⟩

/-- Modelled from the spec: the bind_transmitter_resp operation module is absent from
the sources; its body is the single system_id bounded string, present exactly on
success responses, following the conditional-presence shape of submit_sm_resp. -/
structure BindTransmitterRespPdu where
  system_id : Option COctetString
deriving DecidableEq

/-- Modelled from the spec: BindTransmitterRespPdu::parse, conditional-presence shape. -/
def BindTransmitterRespPdu.parse (command_status : Nat) (s : BSrc) :
    Except PduParseError BindTransmitterRespPdu × BSrc :=
  if command_status = 0 then
    match fld "system_id" (cOctetRead 16 s) with
    | (.ok v, s1) => (.ok ⟨some ⟨v⟩⟩, s1)
    | (.error e, s1) => (.error e, s1)
  else
    match readByte s with
    | (some _, s1) => (.error (PduParseError.new .bodyNotAllowedWhenStatusIsNotZero), s1)
    | (none, s1) => (.ok ⟨none⟩, s1)

/-- Modelled from the spec: BindTransmitterRespPdu::new with a validated system_id. -/
def BindTransmitterRespPdu.new (system_id : List Nat) :
    Except PduParseError BindTransmitterRespPdu :=
  (COctetString.from_str system_id 16).map fun c => ⟨some c⟩

/-- Modelled from the spec: BindTransmitterRespPdu::new_error has no body fields. -/
def BindTransmitterRespPdu.new_error : BindTransmitterRespPdu := ⟨none⟩

/-- Modelled from the spec: BindTransmitterRespPdu::write emits the system_id when
present and nothing for an error response. -/
def BindTransmitterRespPdu.write (b : BindTransmitterRespPdu) : List Nat :=
  match b.system_id with
  | some c => c.write
  | none => []

/-- Modelled from the spec: the generic_nack body is header-only. -/
inductive GenericNackPdu where
  | mk
deriving DecidableEq

/-- Modelled from the spec: GenericNackPdu::new_error. -/
def GenericNackPdu.new_error : GenericNackPdu := .mk

/-- Modelled from the spec: the submit_sm operation module is absent from the sources;
its body is the fixed field sequence evidenced by the tests in pdu.rs, ending with a
one-byte length-prefixed raw short_message. -/
structure SubmitSmPdu where
  service_type : COctetString
  source_addr_ton : Nat
  source_addr_npi : Nat
  source_addr : COctetString
  dest_addr_ton : Nat
  dest_addr_npi : Nat
  destination_addr : COctetString
  esm_class : Nat
  protocol_id : Nat
  priority_flag : Nat
  schedule_delivery_time : COctetString
  validity_period : COctetString
  registered_delivery : Nat
  replace_if_present_flag : Nat
  data_coding : Nat
  sm_default_msg_id : Nat
  short_message : List Nat
deriving DecidableEq

/-- Modelled from the spec: SubmitSmPdu::parse reads the fixed field sequence in wire
order; the short_message length is given by the immediately preceding sm_length byte
and its content is opaque bytes. -/
def SubmitSmPdu.parse (_command_status : Nat) (s : BSrc) :
    Except PduParseError SubmitSmPdu × BSrc :=
  pstep (fld "service_type" (cOctetRead 6 s)) fun service_type s =>
  pstep (fld "source_addr_ton" (readInt1 s)) fun source_addr_ton s =>
  pstep (fld "source_addr_npi" (readInt1 s)) fun source_addr_npi s =>
  pstep (fld "source_addr" (cOctetRead 21 s)) fun source_addr s =>
  pstep (fld "dest_addr_ton" (readInt1 s)) fun dest_addr_ton s =>
  pstep (fld "dest_addr_npi" (readInt1 s)) fun dest_addr_npi s =>
  pstep (fld "destination_addr" (cOctetRead 21 s)) fun destination_addr s =>
  pstep (fld "esm_class" (readInt1 s)) fun esm_class s =>
  pstep (fld "protocol_id" (readInt1 s)) fun protocol_id s =>
  pstep (fld "priority_flag" (readInt1 s)) fun priority_flag s =>
  pstep (fld "schedule_delivery_time" (cOctetRead 17 s)) fun schedule_delivery_time s =>
  pstep (fld "validity_period" (cOctetRead 17 s)) fun validity_period s =>
  pstep (fld "registered_delivery" (readInt1 s)) fun registered_delivery s =>
  pstep (fld "replace_if_present_flag" (readInt1 s)) fun replace_if_present_flag s =>
  pstep (fld "data_coding" (readInt1 s)) fun data_coding s =>
  pstep (fld "sm_default_msg_id" (readInt1 s)) fun sm_default_msg_id s =>
  pstep (fld "sm_length" (readInt1 s)) fun sm_length s =>
  pstep (fld "short_message" (octetRead sm_length s)) fun short_message s =>
  (.ok ⟨⟨service_type⟩, source_addr_ton, source_addr_npi, ⟨source_addr⟩, dest_addr_ton,
    dest_addr_npi, ⟨destination_addr⟩, esm_class, protocol_id, priority_flag,
    ⟨schedule_delivery_time⟩, ⟨validity_period⟩, registered_delivery,
    replace_if_present_flag, data_coding, sm_default_msg_id, short_message⟩, s)

/-- One-byte big-endian encoding of an unsigned 8-bit value. -/
def int1Bytes (n : Nat) : List Nat := [n % 256]

/-- Modelled from the spec: SubmitSmPdu::write serializes the fixed field sequence in
wire order, the short_message preceded by its one-byte length. -/
def SubmitSmPdu.write (b : SubmitSmPdu) : List Nat :=
  b.service_type.write ++ int1Bytes b.source_addr_ton ++ int1Bytes b.source_addr_npi ++
  b.source_addr.write ++ int1Bytes b.dest_addr_ton ++ int1Bytes b.dest_addr_npi ++
  b.destination_addr.write ++ int1Bytes b.esm_class ++ int1Bytes b.protocol_id ++
  int1Bytes b.priority_flag ++ b.schedule_delivery_time.write ++ b.validity_period.write ++
  int1Bytes b.registered_delivery ++ int1Bytes b.replace_if_present_flag ++
  int1Bytes b.data_coding ++ int1Bytes b.sm_default_msg_id ++
  int1Bytes b.short_message.length ++ b.short_message

/-- The closed body variant type of pdu.rs. -/
inductive PduBody where
  | bindTransmitter (body : BindTransmitterPdu)
  | bindTransmitterResp (body : BindTransmitterRespPdu)
  | genericNack (body : GenericNackPdu)
  | submitSm (body : SubmitSmPdu)
  | submitSmResp (body : SubmitSmRespPdu)
deriving DecidableEq

/-- The body dispatcher parse_body of pdu.rs: exactly four command ids are recognized;
any other command id, the generic_nack id included, fails with UnknownCommandId. -/
def parse_body (command_id command_status : Nat) (s : BSrc) :
    Except PduParseError PduBody × BSrc :=
  if command_id = 0x00000002 then
    pmap (BindTransmitterPdu.parse command_status s) PduBody.bindTransmitter
  else if command_id = 0x80000002 then
    pmap (BindTransmitterRespPdu.parse command_status s) PduBody.bindTransmitterResp
  else if command_id = 0x00000004 then
    pmap (SubmitSmPdu.parse command_status s) PduBody.submitSm
  else if command_id = 0x80000004 then
    pmap (SubmitSmRespPdu.parse command_status s) PduBody.submitSmResp
  else (.error (PduParseError.new .unknownCommandId), s)

/-- The Pdu value of pdu.rs: three stored header integers plus the body
(command_length is derivable, not stored). -/
structure Pdu where
  command_id : Nat
  command_status : Nat
  sequence_number : Nat
  body : PduBody
deriving DecidableEq

/-- Pdu::new stores the supplied command_id and body without any consistency check. -/
def Pdu.new (command_id command_status sequence_number : Nat) (body : PduBody) : Pdu :=
  ⟨command_id, command_status, sequence_number, body⟩

/-- Pdu::new_generic_nack_error. -/
def Pdu.new_generic_nack_error (command_status sequence_number : Nat) : Pdu :=
  Pdu.new GENERIC_NACK command_status sequence_number (.genericNack GenericNackPdu.new_error)

/-- Pdu::new_bind_transmitter_resp. -/
def Pdu.new_bind_transmitter_resp (sequence_number : Nat) (system_id : List Nat) :
    Except PduParseError Pdu :=
  (BindTransmitterRespPdu.new system_id).map fun b =>
    Pdu.new BIND_TRANSMITTER_RESP 0 sequence_number (.bindTransmitterResp b)

/-- Pdu::new_bind_transmitter_resp_error. -/
def Pdu.new_bind_transmitter_resp_error (command_status sequence_number : Nat) : Pdu :=
  Pdu.new BIND_TRANSMITTER_RESP command_status sequence_number
    (.bindTransmitterResp BindTransmitterRespPdu.new_error)

/-- Pdu::new_submit_sm_resp_error. -/
def Pdu.new_submit_sm_resp_error (command_status sequence_number : Nat) : Pdu :=
  Pdu.new SUBMIT_SM_RESP command_status sequence_number
    (.submitSmResp SubmitSmRespPdu.new_error)

/-- The u32 wrapping computation of the sub-view budget in Pdu::parse: the source
subtracts 4 from the declared command_length as a u32, so a declared length below 4
wraps around instead of reaching the unwrap_or(0) guard, which is unreachable. -/
def takeBudget (cl : Nat) : Nat := ((4294967296 - 4) + cl) % 4294967296

/-- Body dispatch followed by the no-leftover assertion of Pdu::parse: after a
successful body parse a single further byte is probed inside the sub-view and any
byte obtained fails with LengthLongerThanPdu. -/
def parseBodyAndCheck (cl command_id command_status : Nat) (s : BSrc) :
    Except PduParseError PduBody × BSrc :=
  match parse_body command_id command_status s with
  | (.error e, s1) => (.error e, s1)
  | (.ok b, s1) =>
    match readByte s1 with
    | (some _, s2) => (.error (PduParseError.new (.lengthLongerThanPdu cl)), s2)
    | (none, s2) => (.ok b, s2)

/-- The part of Pdu::parse after the command_length has been read: the three header
integers in order, the length-bounds validation, then body dispatch and the
no-leftover check, with the progressive context annotation of the source. -/
def parseAfterLength (cl : Nat) (s0 : BSrc) : Except PduParseError Pdu × BSrc :=
  match hfld "command_id" s0 cl with
  | (.error e, s) => (.error e, s)
  | (.ok command_id, s1) =>
    match hfld "command_status" s1 cl with
    | (.error e, s) => (.error (e.intoWithHeader (some command_id) none none), s)
    | (.ok command_status, s2) =>
      match hfld "sequence_number" s2 cl with
      | (.error e, s) =>
        (.error (e.intoWithHeader (some command_id) (some command_status) none), s)
      | (.ok sequence_number, s3) =>
        match validate_command_length cl with
        | .error e =>
          (.error (e.intoWithHeader (some command_id) (some command_status)
            (some sequence_number)), s3)
        | .ok _ =>
          match parseBodyAndCheck cl command_id command_status s3 with
          | (.error e, s) =>
            (.error (e.intoWithHeader (some command_id) (some command_status)
              (some sequence_number)), s)
          | (.ok body, s4) =>
            (.ok ⟨command_id, command_status, sequence_number, body⟩, s4)

/-- Pdu::parse with the remaining input made explicit: reads command_length, bounds
the remaining reads by the wrapped budget command_length minus 4, and runs the rest of
the parser inside that sub-view. -/
def Pdu.parseWithRest (bs : List Nat) : Except PduParseError Pdu × List Nat :=
  match readU32 bs with
  | none => (.error (PduParseError.new .notEnoughBytes), [])
  | some (cl, r) =>
    ((parseAfterLength cl ⟨takeBudget cl, r⟩).1,
     (parseAfterLength cl ⟨takeBudget cl, r⟩).2.rest)

/-- Pdu::parse, result component only. -/
def Pdu.parse (bs : List Nat) : Except PduParseError Pdu :=
  (Pdu.parseWithRest bs).1

/-- PduBody::write of the five variants as driven by Pdu::write: the bind_transmitter
and submit_sm_resp bodies have unimplemented serializers in the source (todo macros
that never return), modelled as none; the remaining three are modelled from the spec. -/
def PduBody.write : PduBody → Option (List Nat)
  | .bindTransmitter _ => none
  | .bindTransmitterResp b => some b.write
  | .genericNack _ => some []
  | .submitSm b => some b.write
  | .submitSmResp _ => none

/-- Pdu::write: the three stored header integers and the body are serialized into a
fresh intermediate buffer, command_length is computed as the buffer length plus 4, and
the length followed by the buffer is flushed to the sink. -/
def Pdu.write (p : Pdu) : Option (List Nat) :=
  match PduBody.write p.body with
  | none => none
  | some bodyBytes =>
    let buf := toBytes4 p.command_id ++ toBytes4 p.command_status ++
      toBytes4 p.sequence_number ++ bodyBytes
    some (toBytes4 (buf.length + 4) ++ buf)

/-- The two-valued framing outcome. -/
inductive CheckOutcome where
  | ready
  | incomplete
deriving DecidableEq

/-- Modelled from the spec: the framing check of check.rs reads the leading four-byte
command_length and reports Ready exactly when at least command_length bytes are
buffered, Incomplete otherwise, the length field itself being incomplete included;
only byte counts are inspected, never field contents. -/
def frameCheck (bs : List Nat) : CheckOutcome :=
  if bs.length < 4 then .incomplete
  else if bs.length < u32At bs then .incomplete
  else .ready

/-- Pdu::check delegates directly to the framing check of the check module. -/
def Pdu.check (bs : List Nat) : CheckOutcome := frameCheck bs

/-- The command id implied by a body variant, per the dispatcher literals of pdu.rs
and the id constants of the operation modules. -/
def PduBody.commandIdOf : PduBody → Nat
  | .bindTransmitter _ => BIND_TRANSMITTER
  | .bindTransmitterResp _ => BIND_TRANSMITTER_RESP
  | .genericNack _ => GENERIC_NACK
  | .submitSm _ => SUBMIT_SM
  | .submitSmResp _ => SUBMIT_SM_RESP

/-- Consistency of the stored command_id with the body variant. -/
def Pdu.consistent (p : Pdu) : Bool :=
  decide (p.command_id = p.body.commandIdOf)

/-- Well-formedness of a C-octet string under its per-field maximum: it fits with its
terminator and every byte is nonzero ASCII, so that its wire encoding parses back. -/
def COctetString.wf (c : COctetString) (maxLen : Nat) : Bool :=
  decide (c.value.length + 1 ≤ maxLen) &&
    c.value.all fun x => decide (0 < x) && decide (x < 128)

/-- Well-formedness of a body: every string field is well-formed under its maximum,
every one-byte integer fits a byte, and the short_message fits its one-byte length. -/
def PduBody.wf : PduBody → Bool
  | .bindTransmitter b =>
    b.system_id.wf 16 && b.password.wf 9 && b.system_type.wf 13 &&
    decide (b.interface_version < 256) && decide (b.addr_ton < 256) &&
    decide (b.addr_npi < 256) && b.address_range.wf 41
  | .bindTransmitterResp b =>
    match b.system_id with
    | some c => c.wf 16
    | none => true
  | .genericNack _ => true
  | .submitSm b =>
    b.service_type.wf 6 && decide (b.source_addr_ton < 256) &&
    decide (b.source_addr_npi < 256) && b.source_addr.wf 21 &&
    decide (b.dest_addr_ton < 256) && decide (b.dest_addr_npi < 256) &&
    b.destination_addr.wf 21 && decide (b.esm_class < 256) &&
    decide (b.protocol_id < 256) && decide (b.priority_flag < 256) &&
    b.schedule_delivery_time.wf 17 && b.validity_period.wf 17 &&
    decide (b.registered_delivery < 256) && decide (b.replace_if_present_flag < 256) &&
    decide (b.data_coding < 256) && decide (b.sm_default_msg_id < 256) &&
    decide (b.short_message.length < 256) && b.short_message.all fun x => decide (x < 256)
  | .submitSmResp b =>
    match b.message_id with
    | some c => c.wf 65
    | none => true

/-- Validity of a Pdu value: a well-formed body and header integers in u32 range. -/
def Pdu.valid (p : Pdu) : Bool :=
  p.body.wf && decide (p.command_id < 4294967296) &&
    decide (p.command_status < 4294967296) && decide (p.sequence_number < 4294967296)

/-- Consistency of the stored command_status with the conditional presence of the
optional body field of the response operations. -/
def Pdu.statusBodyConsistent (p : Pdu) : Bool :=
  match p.body with
  | .bindTransmitterResp b => decide (p.command_status = 0) == b.system_id.isSome
  | .submitSmResp b => decide (p.command_status = 0) == b.message_id.isSome
  | _ => true

/-! Basic lemmas about the byte primitives. -/

theorem word32_digits (n : Nat) (h : n < 4294967296) :
    word32 (n / 16777216 % 256) (n / 65536 % 256) (n / 256 % 256) (n % 256) = n := by
  unfold word32
  omega

theorem readU32_append (n : Nat) (t : List Nat) (h : n < 4294967296) :
    readU32 (toBytes4 n ++ t) = some (n, t) := by
  simp only [toBytes4, List.cons_append, List.nil_append, readU32]
  rw [word32_digits n h]

theorem u32At_append (n : Nat) (t : List Nat) (h : n < 4294967296) :
    u32At (toBytes4 n ++ t) = n := by
  simp only [toBytes4, List.cons_append, List.nil_append, u32At]
  exact word32_digits n h

theorem takeBudget_eq (cl : Nat) (h4 : 4 ≤ cl) (hlt : cl < 4294967296) :
    takeBudget cl = cl - 4 := by
  unfold takeBudget
  omega

theorem takeBudget_le (cl : Nat) (h4 : 4 ≤ cl) : takeBudget cl ≤ cl - 4 := by
  unfold takeBudget
  omega

theorem readByte_cons (b x : Nat) (xs : List Nat) (hb : b ≠ 0) :
    readByte ⟨b, x :: xs⟩ = (some x, ⟨b - 1, xs⟩) := by
  simp [readByte, hb]

theorem readByte_nil (b : Nat) : readByte ⟨b, []⟩ = (none, ⟨b, []⟩) := by
  by_cases h : b = 0 <;> simp [readByte, h]

theorem readByte_zero (l : List Nat) : readByte ⟨0, l⟩ = (none, ⟨0, l⟩) := by
  simp [readByte]

theorem readBytesN_exact (l : List Nat) : ∀ (t : List Nat) (b : Nat), l.length ≤ b →
    readBytesN l.length ⟨b, l ++ t⟩ = (some l, ⟨b - l.length, t⟩) := by
  induction l with
  | nil => intro t b _; simp [readBytesN]
  | cons x xs ih =>
    intro t b h
    simp only [List.length_cons] at h ⊢
    show readBytesN (xs.length + 1) ⟨b, (x :: xs) ++ t⟩ = _
    unfold readBytesN
    rw [List.cons_append, readByte_cons b x (xs ++ t) (by omega)]
    simp only []
    rw [ih t (b - 1) (by omega)]
    simp only []
    have : b - 1 - xs.length = b - (xs.length + 1) := by omega
    rw [this]

theorem readInt4_emit (n : Nat) (t : List Nat) (b : Nat) (hb : 4 ≤ b)
    (hn : n < 4294967296) :
    readInt4 ⟨b, toBytes4 n ++ t⟩ = (.ok n, ⟨b - 4, t⟩) := by
  have hlen : (toBytes4 n).length = 4 := rfl
  have h := readBytesN_exact (toBytes4 n) t b (by rw [hlen]; exact hb)
  rw [hlen] at h
  unfold readInt4
  rw [h]
  simp only [toBytes4, List.foldl_cons, List.foldl_nil]
  have : ((((0 * 256 + n / 16777216 % 256) * 256 + n / 65536 % 256) * 256 +
      n / 256 % 256) * 256 + n % 256) = n := by omega
  rw [this]

theorem readInt1_emit (x : Nat) (t : List Nat) (b : Nat) (hb : b ≠ 0) :
    readInt1 ⟨b, x :: t⟩ = (.ok x, ⟨b - 1, t⟩) := by
  unfold readInt1
  rw [readByte_cons b x t hb]

theorem octetRead_emit (l t : List Nat) (b : Nat) (h : l.length ≤ b) :
    octetRead l.length ⟨b, l ++ t⟩ = (.ok l, ⟨b - l.length, t⟩) := by
  unfold octetRead
  rw [readBytesN_exact l t b h]

theorem cOctetReadAux_emit (maxLen : Nat) (v : List Nat) :
    ∀ (fuel off b : Nat) (t : List Nat),
    v.length < fuel → v.length + 1 ≤ b → (∀ x ∈ v, 0 < x ∧ x < 128) →
    cOctetReadAux maxLen fuel off ⟨b, v ++ 0 :: t⟩ =
      (.ok v, ⟨b - (v.length + 1), t⟩) := by
  induction v with
  | nil =>
    intro fuel off b t hf hb hv
    obtain ⟨f, rfl⟩ : ∃ f, fuel = f + 1 := ⟨fuel - 1, by omega⟩
    simp only [List.nil_append, List.length_nil]
    unfold cOctetReadAux
    rw [readByte_cons b 0 t (by omega)]
    simp
  | cons x xs ih =>
    intro fuel off b t hf hb hv
    obtain ⟨f, rfl⟩ : ∃ f, fuel = f + 1 := ⟨fuel - 1, by omega⟩
    have hx := hv x (by simp)
    simp only [List.length_cons] at hb hf ⊢
    rw [List.cons_append]
    unfold cOctetReadAux
    rw [readByte_cons b x (xs ++ 0 :: t) (by omega)]
    simp only []
    rw [if_neg (by omega : ¬x = 0), if_neg (by omega : ¬128 ≤ x)]
    rw [ih f (off + 1) (b - 1) t (by omega) (by omega)
      (fun y hy => hv y (by simp [hy]))]
    simp only []
    have : b - 1 - (xs.length + 1) = b - (xs.length + 1 + 1) := by omega
    rw [this]

theorem cOctetRead_emit (maxLen : Nat) (v : List Nat) (b : Nat) (t : List Nat)
    (hlen : v.length + 1 ≤ maxLen) (hb : v.length + 1 ≤ b)
    (hv : ∀ x ∈ v, 0 < x ∧ x < 128) :
    cOctetRead maxLen ⟨b, v ++ 0 :: t⟩ = (.ok v, ⟨b - (v.length + 1), t⟩) :=
  cOctetReadAux_emit maxLen v maxLen 0 b t (by omega) hb hv

theorem cOctetRead_eof (maxLen : Nat) (s s1 : BSrc) (hm : maxLen ≠ 0)
    (h : readByte s = (none, s1)) :
    cOctetRead maxLen s =
      (.error (PduParseError.new .stringDoesNotEndWithZeroByte), s1) := by
  obtain ⟨m, rfl⟩ : ∃ m, maxLen = m + 1 := ⟨maxLen - 1, by omega⟩
  unfold cOctetRead cOctetReadAux
  rw [h]

/-! Reduction lemmas for the sequencing combinators. -/

theorem fld_ok {α : Type} (n : String) (a : α) (s : BSrc) :
    fld n (.ok a, s) = (.ok a, s) := rfl

theorem fld_err {α : Type} (n : String) (e : PduParseError) (s : BSrc) :
    fld (α := α) n (.error e, s) = (.error (e.intoWithFieldName n), s) := rfl

theorem pstep_ok {α β : Type} (a : α) (s : BSrc)
    (f : α → BSrc → Except PduParseError β × BSrc) :
    pstep (.ok a, s) f = f a s := rfl

theorem pstep_err {α β : Type} (e : PduParseError) (s : BSrc)
    (f : α → BSrc → Except PduParseError β × BSrc) :
    pstep (.error e, s) f = (.error e, s) := rfl

/-! Lemmas about the header-field reader and the length validator. -/

theorem intoWithHeader_kind (e : PduParseError) (a b c : Option Nat) :
    (e.intoWithHeader a b c).kind = e.kind := rfl

theorem validate_ok (cl : Nat) (h8 : 8 ≤ cl) (h7 : cl ≤ 70000) :
    validate_command_length cl = .ok () := by
  unfold validate_command_length
  rw [if_neg (by omega), if_neg (by omega)]

theorem validate_short (cl : Nat) (h : cl < 8) :
    validate_command_length cl = .error (PduParseError.new (.lengthTooShort cl)) := by
  unfold validate_command_length
  rw [if_pos h]

theorem validate_long (cl : Nat) (h : 70000 < cl) :
    validate_command_length cl = .error (PduParseError.new (.lengthTooLong cl)) := by
  unfold validate_command_length
  rw [if_neg (by omega), if_pos h]

theorem readInt4_err (s s1 : BSrc) (e : PduParseError)
    (h : readInt4 s = (.error e, s1)) : e = PduParseError.new .notEnoughBytes := by
  unfold readInt4 at h
  cases hr : readBytesN 4 s with
  | mk o s2 =>
    rw [hr] at h
    cases o with
    | none => simp only [Prod.mk.injEq, Except.error.injEq] at h; exact h.1.symm
    | some l => simp at h

theorem hfld_ok (name : String) (s : BSrc) (cl v : Nat) (s1 : BSrc)
    (h : readInt4 s = (.ok v, s1)) : hfld name s cl = (.ok v, s1) := by
  unfold hfld
  rw [h]

theorem hfld_err_badlen (name : String) (s : BSrc) (cl : Nat) (e le : PduParseError)
    (s1 : BSrc) (h : readInt4 s = (.error e, s1))
    (hv : validate_command_length cl = .error le) :
    hfld name s cl = (.error le, s1) := by
  unfold hfld
  rw [h]
  simp only []
  rw [hv]

theorem hfld_err_goodlen (name : String) (s : BSrc) (cl : Nat) (e : PduParseError)
    (s1 : BSrc) (h : readInt4 s = (.error e, s1))
    (hv : validate_command_length cl = .ok ()) :
    hfld name s cl = (.error (e.intoWithFieldName name), s1) := by
  unfold hfld
  rw [h]
  simp only []
  rw [hv]

/-- Whenever the declared command_length violates its bounds, the tail of the parse
fails with an error of the corresponding length kind, whatever the rest of the input. -/
theorem parseAfterLength_badlen (cl : Nat) (s0 : BSrc) (e0 : PduParseError)
    (hv : validate_command_length cl = .error e0) :
    ∃ e, (parseAfterLength cl s0).1 = .error e ∧ e.kind = e0.kind := by
  unfold parseAfterLength
  cases h1 : readInt4 s0 with
  | mk r1 s1 =>
    cases r1 with
    | error e1 =>
      rw [hfld_err_badlen "command_id" s0 cl e1 e0 s1 h1 hv]
      exact ⟨e0, rfl, rfl⟩
    | ok cid =>
      rw [hfld_ok "command_id" s0 cl cid s1 h1]
      simp only []
      cases h2 : readInt4 s1 with
      | mk r2 s2 =>
        cases r2 with
        | error e2 =>
          rw [hfld_err_badlen "command_status" s1 cl e2 e0 s2 h2 hv]
          exact ⟨e0.intoWithHeader (some cid) none none, rfl, rfl⟩
        | ok cst =>
          rw [hfld_ok "command_status" s1 cl cst s2 h2]
          simp only []
          cases h3 : readInt4 s2 with
          | mk r3 s3 =>
            cases r3 with
            | error e3 =>
              rw [hfld_err_badlen "sequence_number" s2 cl e3 e0 s3 h3 hv]
              exact ⟨e0.intoWithHeader (some cid) (some cst) none, rfl, rfl⟩
            | ok seq =>
              rw [hfld_ok "sequence_number" s2 cl seq s3 h3]
              simp only []
              rw [hv]
              exact ⟨e0.intoWithHeader (some cid) (some cst) (some seq), rfl, rfl⟩

/-- Pdu::parse in terms of the tail parser once the command_length has been read. -/
theorem Pdu.parse_eq (bs : List Nat) (cl : Nat) (r : List Nat)
    (h : readU32 bs = some (cl, r)) :
    Pdu.parse bs = (parseAfterLength cl ⟨takeBudget cl, r⟩).1 := by
  unfold Pdu.parse Pdu.parseWithRest
  rw [h]

/-- C3: an input whose declared command_length is below 8 fails with kind
LengthTooShort and one whose declared command_length exceeds 70000 fails with kind
LengthTooLong, whatever the remaining bytes hold, so the outcome kind is independent
of the command_id, command_status and sequence_number values. -/
theorem c3_length_bounds (bs : List Nat) (cl : Nat) (r : List Nat)
    (h : readU32 bs = some (cl, r)) :
    (cl < 8 → ∃ e, Pdu.parse bs = .error e ∧ e.kind = .lengthTooShort cl) ∧
    (70000 < cl → ∃ e, Pdu.parse bs = .error e ∧ e.kind = .lengthTooLong cl) := by
  constructor
  · intro h8
    obtain ⟨e, he, hk⟩ :=
      parseAfterLength_badlen cl ⟨takeBudget cl, r⟩ _ (validate_short cl h8)
    exact ⟨e, by rw [Pdu.parse_eq bs cl r h]; exact he, hk⟩
  · intro h7
    obtain ⟨e, he, hk⟩ :=
      parseAfterLength_badlen cl ⟨takeBudget cl, r⟩ _ (validate_long cl h7)
    exact ⟨e, by rw [Pdu.parse_eq bs cl r h]; exact he, hk⟩

/-- Witness for C3 at two concrete inputs, one per bound. -/
theorem c3_length_bounds_witness :
    (∃ e, Pdu.parse [0, 0, 0, 4] = .error e ∧ e.kind = .lengthTooShort 4) ∧
    (∃ e, Pdu.parse [255, 255, 255, 255] = .error e ∧
      e.kind = .lengthTooLong 4294967295) :=
  ⟨(c3_length_bounds [0, 0, 0, 4] 4 [] (by decide)).1 (by decide),
   (c3_length_bounds [255, 255, 255, 255] 4294967295 [] (by decide)).2 (by decide)⟩

/-- C4: the three header integers are read in order command_id, command_status,
sequence_number; a failure while reading one of them is annotated with the header
fields already read plus the failing field name, the unread fields staying absent,
except that a declared command_length violating its bounds is reported as the length
error instead of the generic short-read error. -/
theorem c4_header_field_context (bs : List Nat) (cl : Nat) (r : List Nat)
    (h : readU32 bs = some (cl, r)) :
    (∀ e s1, 8 ≤ cl → cl ≤ 70000 →
      readInt4 ⟨takeBudget cl, r⟩ = (.error e, s1) →
      Pdu.parse bs = .error ⟨.notEnoughBytes, none, none, none, some "command_id"⟩) ∧
    (∀ cid s1 e s2, 8 ≤ cl → cl ≤ 70000 →
      readInt4 ⟨takeBudget cl, r⟩ = (.ok cid, s1) →
      readInt4 s1 = (.error e, s2) →
      Pdu.parse bs =
        .error ⟨.notEnoughBytes, some cid, none, none, some "command_status"⟩) ∧
    (∀ cid s1 cst s2 e s3, 8 ≤ cl → cl ≤ 70000 →
      readInt4 ⟨takeBudget cl, r⟩ = (.ok cid, s1) →
      readInt4 s1 = (.ok cst, s2) →
      readInt4 s2 = (.error e, s3) →
      Pdu.parse bs =
        .error ⟨.notEnoughBytes, some cid, some cst, none, some "sequence_number"⟩) ∧
    (∀ cid s1 e s2, 70000 < cl →
      readInt4 ⟨takeBudget cl, r⟩ = (.ok cid, s1) →
      readInt4 s1 = (.error e, s2) →
      Pdu.parse bs = .error ⟨.lengthTooLong cl, some cid, none, none, none⟩) := by
  refine ⟨?_, ?_, ?_, ?_⟩
  · intro e s1 h8 h7 hr
    obtain rfl := readInt4_err _ _ _ hr
    rw [Pdu.parse_eq bs cl r h]
    unfold parseAfterLength
    rw [hfld_err_goodlen "command_id" _ cl _ s1 hr (validate_ok cl h8 h7)]
    rfl
  · intro cid s1 e s2 h8 h7 h1 h2
    obtain rfl := readInt4_err _ _ _ h2
    rw [Pdu.parse_eq bs cl r h]
    unfold parseAfterLength
    rw [hfld_ok "command_id" _ cl cid s1 h1]
    simp only []
    rw [hfld_err_goodlen "command_status" s1 cl _ s2 h2 (validate_ok cl h8 h7)]
    rfl
  · intro cid s1 cst s2 e s3 h8 h7 h1 h2 h3
    obtain rfl := readInt4_err _ _ _ h3
    rw [Pdu.parse_eq bs cl r h]
    unfold parseAfterLength
    rw [hfld_ok "command_id" _ cl cid s1 h1]
    simp only []
    rw [hfld_ok "command_status" s1 cl cst s2 h2]
    simp only []
    rw [hfld_err_goodlen "sequence_number" s2 cl _ s3 h3 (validate_ok cl h8 h7)]
    rfl
  · intro cid s1 e s2 h7 h1 h2
    rw [Pdu.parse_eq bs cl r h]
    unfold parseAfterLength
    rw [hfld_ok "command_id" _ cl cid s1 h1]
    simp only []
    rw [hfld_err_badlen "command_status" s1 cl e _ s2 h2 (validate_long cl h7)]
    rfl

/-- Witness for C4: a PDU truncated inside its command_status field. -/
theorem c4_header_field_context_witness :
    Pdu.parse [0, 0, 0, 20, 0, 0, 0, 2] =
      .error ⟨.notEnoughBytes, some 2, none, none, some "command_status"⟩ :=
  (c4_header_field_context [0, 0, 0, 20, 0, 0, 0, 2] 20 [0, 0, 0, 2]
    (by decide)).2.1 2 ⟨12, []⟩ (PduParseError.new .notEnoughBytes) ⟨12, []⟩
    (by decide) (by decide) (by decide) (by decide)

/-- C7: when the body codec succeeds but at least one more byte can be obtained inside
the declared command_length sub-view, Pdu::parse fails with kind LengthLongerThanPdu,
annotated with the full header context and no field name. -/
theorem c7_leftover_bytes (bs : List Nat) (cl : Nat) (r : List Nat)
    (cid cst seq : Nat) (s1 s2 s3 s4 s5 : BSrc) (b : PduBody) (x : Nat)
    (h : readU32 bs = some (cl, r))
    (h1 : hfld "command_id" ⟨takeBudget cl, r⟩ cl = (.ok cid, s1))
    (h2 : hfld "command_status" s1 cl = (.ok cst, s2))
    (h3 : hfld "sequence_number" s2 cl = (.ok seq, s3))
    (h4 : validate_command_length cl = .ok ())
    (h5 : parse_body cid cst s3 = (.ok b, s4))
    (h6 : readByte s4 = (some x, s5)) :
    Pdu.parse bs =
      .error ⟨.lengthLongerThanPdu cl, some cid, some cst, some seq, none⟩ := by
  rw [Pdu.parse_eq bs cl r h]
  unfold parseAfterLength
  rw [h1]
  simp only []
  rw [h2]
  simp only []
  rw [h3]
  simp only []
  rw [h4]
  simp only []
  unfold parseBodyAndCheck
  rw [h5]
  simp only []
  rw [h6]
  rfl

/-- Witness for C7: a submit_sm_resp PDU whose declared length leaves one byte after
the message_id. -/
theorem c7_leftover_bytes_witness :
    Pdu.parse [0, 0, 0, 19, 128, 0, 0, 4, 0, 0, 0, 0, 0, 0, 0, 4, 97, 0, 120] =
      .error ⟨.lengthLongerThanPdu 19, some 2147483652, some 0, some 4, none⟩ :=
  c7_leftover_bytes [0, 0, 0, 19, 128, 0, 0, 4, 0, 0, 0, 0, 0, 0, 0, 4, 97, 0, 120]
    19 [128, 0, 0, 4, 0, 0, 0, 0, 0, 0, 0, 4, 97, 0, 120] 2147483652 0 4
    ⟨11, [0, 0, 0, 0, 0, 0, 0, 4, 97, 0, 120]⟩ ⟨7, [0, 0, 0, 4, 97, 0, 120]⟩
    ⟨3, [97, 0, 120]⟩ ⟨1, [120]⟩ ⟨0, []⟩
    (.submitSmResp ⟨some ⟨[97]⟩⟩) 120
    (by decide) (by decide) (by decide) (by decide) (by decide) (by decide) (by decide)

/-- C5: SubmitSmRespPdu::parse over the bounded source requires a message_id when the
command_status is zero (its absence is an error naming the message_id field), fails
with kind BodyNotAllowedWhenStatusIsNotZero when the command_status is nonzero and a
byte can be obtained, and succeeds with an absent message_id when the command_status
is nonzero and the source is exhausted. -/
theorem c5_submit_sm_resp_conditional (command_status : Nat) (s : BSrc) :
    (command_status = 0 → ∀ v s1, cOctetRead 65 s = (.ok v, s1) →
      SubmitSmRespPdu.parse command_status s = (.ok ⟨some ⟨v⟩⟩, s1)) ∧
    (command_status = 0 → ∀ s1, readByte s = (none, s1) →
      ∃ e s2, SubmitSmRespPdu.parse command_status s = (.error e, s2) ∧
        e.field_name = some "message_id") ∧
    (command_status ≠ 0 → ∀ x s1, readByte s = (some x, s1) →
      SubmitSmRespPdu.parse command_status s =
        (.error (PduParseError.new .bodyNotAllowedWhenStatusIsNotZero), s1)) ∧
    (command_status ≠ 0 → ∀ s1, readByte s = (none, s1) →
      SubmitSmRespPdu.parse command_status s = (.ok ⟨none⟩, s1)) := by
  refine ⟨?_, ?_, ?_, ?_⟩
  · intro h0 v s1 hr
    unfold SubmitSmRespPdu.parse
    rw [if_pos h0, hr, fld_ok]
  · intro h0 s1 hr
    unfold SubmitSmRespPdu.parse
    rw [if_pos h0, cOctetRead_eof 65 s s1 (by omega) hr, fld_err]
    exact ⟨_, s1, rfl, rfl⟩
  · intro h0 x s1 hr
    unfold SubmitSmRespPdu.parse
    rw [if_neg h0, hr]
  · intro h0 s1 hr
    unfold SubmitSmRespPdu.parse
    rw [if_neg h0, hr]

/-- Witness for C5: a nonzero-status submit_sm_resp body with one stray byte fails,
and with an exhausted source succeeds without a message_id. -/
theorem c5_submit_sm_resp_conditional_witness :
    SubmitSmRespPdu.parse 7 ⟨5, [1, 2]⟩ =
      (.error (PduParseError.new .bodyNotAllowedWhenStatusIsNotZero), ⟨4, [2]⟩) ∧
    SubmitSmRespPdu.parse 7 ⟨0, []⟩ = (.ok ⟨none⟩, ⟨0, []⟩) :=
  ⟨(c5_submit_sm_resp_conditional 7 ⟨5, [1, 2]⟩).2.2.1 (by decide) 1 ⟨4, [2]⟩
      (by decide),
   (c5_submit_sm_resp_conditional 7 ⟨0, []⟩).2.2.2 (by decide) ⟨0, []⟩ (by decide)⟩

/-- C6: BindTransmitterPdu::parse consumes all seven body fields first; with a nonzero
command_status and structurally well-formed fields it fails with kind StatusIsNotZero
against the command_status field, while a structurally malformed field reports that
field error unchanged whatever the command_status is. -/
theorem c6_bind_transmitter_status_order (command_status : Nat) (s : BSrc) :
    (command_status ≠ 0 → ∀ b s1, BindTransmitterPdu.readFields s = (.ok b, s1) →
      BindTransmitterPdu.parse command_status s =
        (.error ⟨.statusIsNotZero, none, none, none, some "command_status"⟩, s1)) ∧
    (∀ e s1, BindTransmitterPdu.readFields s = (.error e, s1) →
      BindTransmitterPdu.parse command_status s = (.error e, s1)) := by
  constructor
  · intro h0 b s1 hr
    unfold BindTransmitterPdu.parse
    rw [hr, pstep_ok, if_pos h0]
    rfl
  · intro e s1 hr
    unfold BindTransmitterPdu.parse
    rw [hr, pstep_err]

/-- Witness for C6: a well-formed seven-field body parsed under a nonzero status. -/
theorem c6_bind_transmitter_status_order_witness :
    BindTransmitterPdu.parse 7 ⟨100, [97, 0, 98, 0, 99, 0, 1, 2, 3, 100, 0]⟩ =
      (.error ⟨.statusIsNotZero, none, none, none, some "command_status"⟩,
        ⟨89, []⟩) :=
  (c6_bind_transmitter_status_order 7 ⟨100, [97, 0, 98, 0, 99, 0, 1, 2, 3, 100, 0]⟩).1
    (by decide) ⟨⟨[97]⟩, ⟨[98]⟩, ⟨[99]⟩, 1, 2, 3, ⟨[100]⟩⟩ ⟨89, []⟩ (by decide)

/-- Big-endian value of the first four bytes depends only on the four-byte head. -/
theorem u32At_eq_take (bs : List Nat) : u32At bs = u32At (bs.take 4) := by
  match bs with
  | [] => rfl
  | [a] => rfl
  | [a, b] => rfl
  | [a, b, c] => rfl
  | a :: b :: c :: d :: t => rfl

/-- C8: the framing check behind Pdu::check reports Incomplete whenever fewer bytes
are buffered than the declared command_length, the case of fewer than four buffered
bytes included, reports Ready whenever at least command_length bytes are buffered,
and inspects only the byte count and the four-byte length field, never other field
contents. -/
theorem c8_check_framing (bs : List Nat) :
    (bs.length < 4 → Pdu.check bs = .incomplete) ∧
    (4 ≤ bs.length → bs.length < u32At bs → Pdu.check bs = .incomplete) ∧
    (4 ≤ bs.length → u32At bs ≤ bs.length → Pdu.check bs = .ready) ∧
    (∀ cs, bs.take 4 = cs.take 4 → bs.length = cs.length →
      Pdu.check bs = Pdu.check cs) := by
  refine ⟨?_, ?_, ?_, ?_⟩
  · intro h
    unfold Pdu.check frameCheck
    rw [if_pos h]
  · intro h4 hlt
    unfold Pdu.check frameCheck
    rw [if_neg (by omega), if_pos hlt]
  · intro h4 hge
    unfold Pdu.check frameCheck
    rw [if_neg (by omega), if_neg (by omega)]
  · intro cs ht hl
    have hu : u32At bs = u32At cs := by
      rw [u32At_eq_take bs, u32At_eq_take cs, ht]
    unfold Pdu.check frameCheck
    rw [hl, hu]

/-- Witness for C8: a truncated header is Incomplete, a complete buffered PDU with
trailing bytes is Ready. -/
theorem c8_check_framing_witness :
    Pdu.check [0, 0, 0] = .incomplete ∧
    Pdu.check [0, 0, 0, 16, 128, 0, 0, 0, 0, 0, 0, 7, 0, 0, 0, 1, 9, 9] = .ready :=
  ⟨(c8_check_framing [0, 0, 0]).1 (by decide),
   (c8_check_framing [0, 0, 0, 16, 128, 0, 0, 0, 0, 0, 0, 7, 0, 0, 0, 1, 9, 9]).2.2.1
     (by decide) (by decide)⟩

/-- C2: at the input declaring command_length zero, the u32 subtraction of 4 in
Pdu::parse underflows: the wrapped sub-view budget is 4294967292, not zero, so the
unwrap_or(0) guard never fires; under release (wrapping) semantics the parse still
ends in the recoverable LengthTooShort error, while debug overflow checks would abort
at the subtraction. -/
theorem c2_underflow_at_zero_length :
    readU32 [0, 0, 0, 0] = some (0, []) ∧ takeBudget 0 = 4294967292 ∧
    Pdu.parse [0, 0, 0, 0] = .error ⟨.lengthTooShort 0, none, none, none, none⟩ :=
  ⟨by decide, by decide, by decide⟩

/-- C9 counterexample: Pdu::new stores any supplied command_id together with any
body, so the public constructor can produce a Pdu whose command_id disagrees with
its body variant: the submit_sm id paired with a submit_sm_resp body. -/
theorem c9_new_unchecked :
    (Pdu.new 0x00000004 0 0 (.submitSmResp ⟨none⟩)).consistent = false := by decide

/-- C9 amended: the convenience constructors always produce a Pdu whose command_id is
consistent with its body variant, while Pdu::new itself performs no consistency
check. -/
theorem c9_convenience_consistent (command_status sequence_number : Nat)
    (system_id : List Nat) :
    (Pdu.new_generic_nack_error command_status sequence_number).consistent = true ∧
    (Pdu.new_bind_transmitter_resp_error command_status
      sequence_number).consistent = true ∧
    (Pdu.new_submit_sm_resp_error command_status sequence_number).consistent = true ∧
    (∀ p, Pdu.new_bind_transmitter_resp sequence_number system_id = .ok p →
      p.consistent = true) := by
  refine ⟨?_, ?_, ?_, ?_⟩
  · simp only [Pdu.consistent, Pdu.new_generic_nack_error, Pdu.new,
      PduBody.commandIdOf, GENERIC_NACK, decide_eq_true_eq]
  · simp only [Pdu.consistent, Pdu.new_bind_transmitter_resp_error, Pdu.new,
      PduBody.commandIdOf, BIND_TRANSMITTER_RESP, decide_eq_true_eq]
  · simp only [Pdu.consistent, Pdu.new_submit_sm_resp_error, Pdu.new,
      PduBody.commandIdOf, SUBMIT_SM_RESP, decide_eq_true_eq]
  · intro p hp
    unfold Pdu.new_bind_transmitter_resp BindTransmitterRespPdu.new at hp
    cases hc : COctetString.from_str system_id 16 with
    | error e =>
      rw [hc] at hp
      simp [Except.map] at hp
    | ok c =>
      rw [hc] at hp
      simp only [Except.map, Except.ok.injEq] at hp
      subst hp
      simp only [Pdu.consistent, Pdu.new, PduBody.commandIdOf, BIND_TRANSMITTER_RESP,
        decide_eq_true_eq]

/-- Witness for C9 amended, at concrete constructor arguments. -/
theorem c9_convenience_consistent_witness :
    (Pdu.new_generic_nack_error 7 9).consistent = true ∧
    (Pdu.new 0x80000002 0 9 (.bindTransmitterResp ⟨some ⟨[97]⟩⟩)).consistent = true :=
  ⟨(c9_convenience_consistent 7 9 [97]).1,
   (c9_convenience_consistent 7 9 [97]).2.2.2
     (Pdu.new 0x80000002 0 9 (.bindTransmitterResp ⟨some ⟨[97]⟩⟩)) (by decide)⟩

/-! Consumption bounds: every bounded read leaves a suffix of the input and consumes
at most its budget. -/

/-- The state after a bounded read: some k bytes within the budget were consumed. -/
def Shr (s t : BSrc) : Prop :=
  ∃ k, k ≤ s.budget ∧ t.budget = s.budget - k ∧ t.rest = s.rest.drop k

theorem Shr.refl (s : BSrc) : Shr s s := ⟨0, Nat.zero_le _, by omega, by simp⟩

theorem Shr.trans {a b c : BSrc} (h1 : Shr a b) (h2 : Shr b c) : Shr a c := by
  obtain ⟨k1, hk1, hb1, hr1⟩ := h1
  obtain ⟨k2, hk2, hb2, hr2⟩ := h2
  refine ⟨k1 + k2, by omega, by omega, ?_⟩
  rw [hr2, hr1, List.drop_drop]

theorem shr_readByte (s : BSrc) : Shr s (readByte s).2 := by
  unfold readByte
  by_cases h : s.budget = 0
  · rw [if_pos h]
    exact Shr.refl s
  · rw [if_neg h]
    cases hr : s.rest with
    | nil => exact Shr.refl s
    | cons x xs => exact ⟨1, by omega, rfl, by rw [hr]; rfl⟩

theorem shr_readBytesN (n : Nat) : ∀ s : BSrc, Shr s (readBytesN n s).2 := by
  induction n with
  | zero => intro s; exact Shr.refl s
  | succ n ih =>
    intro s
    unfold readBytesN
    cases hb : readByte s with
    | mk o s1 =>
      have h1 : Shr s s1 := by have := shr_readByte s; rw [hb] at this; exact this
      cases o with
      | none => exact h1
      | some x =>
        simp only []
        cases hr : readBytesN n s1 with
        | mk o2 s2 =>
          have h2 : Shr s1 s2 := by have := ih s1; rw [hr] at this; exact this
          cases o2 with
          | none => exact Shr.trans h1 h2
          | some xs => exact Shr.trans h1 h2

theorem shr_readInt4 (s : BSrc) : Shr s (readInt4 s).2 := by
  unfold readInt4
  cases hr : readBytesN 4 s with
  | mk o s1 =>
    have h1 : Shr s s1 := by have := shr_readBytesN 4 s; rw [hr] at this; exact this
    cases o with
    | none => exact h1
    | some l => exact h1

theorem shr_readInt1 (s : BSrc) : Shr s (readInt1 s).2 := by
  unfold readInt1
  cases hr : readByte s with
  | mk o s1 =>
    have h1 : Shr s s1 := by have := shr_readByte s; rw [hr] at this; exact this
    cases o with
    | none => exact h1
    | some x => exact h1

theorem shr_octetRead (n : Nat) (s : BSrc) : Shr s (octetRead n s).2 := by
  unfold octetRead
  cases hr : readBytesN n s with
  | mk o s1 =>
    have h1 : Shr s s1 := by have := shr_readBytesN n s; rw [hr] at this; exact this
    cases o with
    | none => exact h1
    | some l => exact h1

theorem shr_cOctetReadAux (maxLen : Nat) :
    ∀ (fuel off : Nat) (s : BSrc), Shr s (cOctetReadAux maxLen fuel off s).2 := by
  intro fuel
  induction fuel with
  | zero => intro off s; exact Shr.refl s
  | succ f ih =>
    intro off s
    unfold cOctetReadAux
    cases hb : readByte s with
    | mk o s1 =>
      have h1 : Shr s s1 := by have := shr_readByte s; rw [hb] at this; exact this
      cases o with
      | none => exact h1
      | some x =>
        simp only []
        by_cases hx : x = 0
        · rw [if_pos hx]
          exact h1
        · rw [if_neg hx]
          by_cases hx2 : 128 ≤ x
          · rw [if_pos hx2]
            exact h1
          · rw [if_neg hx2]
            cases hr : cOctetReadAux maxLen f (off + 1) s1 with
            | mk o2 s2 =>
              have h2 : Shr s1 s2 := by
                have := ih (off + 1) s1
                rw [hr] at this
                exact this
              cases o2 with
              | ok v => exact Shr.trans h1 h2
              | error e => exact Shr.trans h1 h2

theorem shr_cOctetRead (maxLen : Nat) (s : BSrc) : Shr s (cOctetRead maxLen s).2 :=
  shr_cOctetReadAux maxLen maxLen 0 s

theorem shr_fld {α : Type} (n : String) (r : Except PduParseError α × BSrc) :
    (fld n r).2 = r.2 := by
  rcases r with ⟨res, s⟩
  cases res <;> rfl

theorem shr_pmap {α β : Type} (r : Except PduParseError α × BSrc) (f : α → β) :
    (pmap r f).2 = r.2 := by
  rcases r with ⟨res, s⟩
  cases res <;> rfl

theorem shr_pstep {α β : Type} (s : BSrc) (r : Except PduParseError α × BSrc)
    (f : α → BSrc → Except PduParseError β × BSrc)
    (hr : Shr s r.2) (hf : ∀ a t, Shr t (f a t).2) : Shr s (pstep r f).2 := by
  rcases r with ⟨res, s1⟩
  cases res with
  | ok a => exact Shr.trans hr (hf a s1)
  | error e => exact hr

theorem shr_readFields (s : BSrc) : Shr s (BindTransmitterPdu.readFields s).2 := by
  unfold BindTransmitterPdu.readFields
  refine shr_pstep _ _ _ (by rw [shr_fld]; exact shr_cOctetRead 16 s) fun a t => ?_
  refine shr_pstep _ _ _ (by rw [shr_fld]; exact shr_cOctetRead 9 t) fun a t => ?_
  refine shr_pstep _ _ _ (by rw [shr_fld]; exact shr_cOctetRead 13 t) fun a t => ?_
  refine shr_pstep _ _ _ (by rw [shr_fld]; exact shr_readInt1 t) fun a t => ?_
  refine shr_pstep _ _ _ (by rw [shr_fld]; exact shr_readInt1 t) fun a t => ?_
  refine shr_pstep _ _ _ (by rw [shr_fld]; exact shr_readInt1 t) fun a t => ?_
  refine shr_pstep _ _ _ (by rw [shr_fld]; exact shr_cOctetRead 41 t) fun a t => ?_
  exact Shr.refl t

theorem shr_bindTransmitterParse (cst : Nat) (s : BSrc) :
    Shr s (BindTransmitterPdu.parse cst s).2 := by
  unfold BindTransmitterPdu.parse
  refine shr_pstep _ _ _ (shr_readFields s) fun a t => ?_
  by_cases h : cst ≠ 0
  · rw [if_pos h]
    exact Shr.refl t
  · rw [if_neg h]
    exact Shr.refl t

theorem shr_submitSmRespParse (cst : Nat) (s : BSrc) :
    Shr s (SubmitSmRespPdu.parse cst s).2 := by
  unfold SubmitSmRespPdu.parse
  by_cases h : cst = 0
  · rw [if_pos h]
    cases hr : cOctetRead 65 s with
    | mk res s1 =>
      have h1 : Shr s s1 := by
        have := shr_cOctetRead 65 s
        rw [hr] at this
        exact this
      cases res with
      | ok v => exact h1
      | error e => exact h1
  · rw [if_neg h]
    cases hb : readByte s with
    | mk o s1 =>
      have h1 : Shr s s1 := by have := shr_readByte s; rw [hb] at this; exact this
      cases o with
      | none => exact h1
      | some x => exact h1

theorem shr_bindTransmitterRespParse (cst : Nat) (s : BSrc) :
    Shr s (BindTransmitterRespPdu.parse cst s).2 := by
  unfold BindTransmitterRespPdu.parse
  by_cases h : cst = 0
  · rw [if_pos h]
    cases hr : cOctetRead 16 s with
    | mk res s1 =>
      have h1 : Shr s s1 := by
        have := shr_cOctetRead 16 s
        rw [hr] at this
        exact this
      cases res with
      | ok v => exact h1
      | error e => exact h1
  · rw [if_neg h]
    cases hb : readByte s with
    | mk o s1 =>
      have h1 : Shr s s1 := by have := shr_readByte s; rw [hb] at this; exact this
      cases o with
      | none => exact h1
      | some x => exact h1

theorem shr_submitSmParse (cst : Nat) (s : BSrc) :
    Shr s (SubmitSmPdu.parse cst s).2 := by
  unfold SubmitSmPdu.parse
  refine shr_pstep _ _ _ (by rw [shr_fld]; exact shr_cOctetRead 6 s) fun a t => ?_
  refine shr_pstep _ _ _ (by rw [shr_fld]; exact shr_readInt1 t) fun a t => ?_
  refine shr_pstep _ _ _ (by rw [shr_fld]; exact shr_readInt1 t) fun a t => ?_
  refine shr_pstep _ _ _ (by rw [shr_fld]; exact shr_cOctetRead 21 t) fun a t => ?_
  refine shr_pstep _ _ _ (by rw [shr_fld]; exact shr_readInt1 t) fun a t => ?_
  refine shr_pstep _ _ _ (by rw [shr_fld]; exact shr_readInt1 t) fun a t => ?_
  refine shr_pstep _ _ _ (by rw [shr_fld]; exact shr_cOctetRead 21 t) fun a t => ?_
  refine shr_pstep _ _ _ (by rw [shr_fld]; exact shr_readInt1 t) fun a t => ?_
  refine shr_pstep _ _ _ (by rw [shr_fld]; exact shr_readInt1 t) fun a t => ?_
  refine shr_pstep _ _ _ (by rw [shr_fld]; exact shr_readInt1 t) fun a t => ?_
  refine shr_pstep _ _ _ (by rw [shr_fld]; exact shr_cOctetRead 17 t) fun a t => ?_
  refine shr_pstep _ _ _ (by rw [shr_fld]; exact shr_cOctetRead 17 t) fun a t => ?_
  refine shr_pstep _ _ _ (by rw [shr_fld]; exact shr_readInt1 t) fun a t => ?_
  refine shr_pstep _ _ _ (by rw [shr_fld]; exact shr_readInt1 t) fun a t => ?_
  refine shr_pstep _ _ _ (by rw [shr_fld]; exact shr_readInt1 t) fun a t => ?_
  refine shr_pstep _ _ _ (by rw [shr_fld]; exact shr_readInt1 t) fun a t => ?_
  refine shr_pstep _ _ _ (by rw [shr_fld]; exact shr_readInt1 t) fun a t => ?_
  refine shr_pstep _ _ _ (by rw [shr_fld]; exact shr_octetRead a t) fun a t => ?_
  exact Shr.refl t

theorem shr_parse_body (cid cst : Nat) (s : BSrc) : Shr s (parse_body cid cst s).2 := by
  unfold parse_body
  by_cases h1 : cid = 0x00000002
  · rw [if_pos h1, shr_pmap]
    exact shr_bindTransmitterParse cst s
  · rw [if_neg h1]
    by_cases h2 : cid = 0x80000002
    · rw [if_pos h2, shr_pmap]
      exact shr_bindTransmitterRespParse cst s
    · rw [if_neg h2]
      by_cases h3 : cid = 0x00000004
      · rw [if_pos h3, shr_pmap]
        exact shr_submitSmParse cst s
      · rw [if_neg h3]
        by_cases h4 : cid = 0x80000004
        · rw [if_pos h4, shr_pmap]
          exact shr_submitSmRespParse cst s
        · rw [if_neg h4]
          exact Shr.refl s

theorem shr_parseBodyAndCheck (cl cid cst : Nat) (s : BSrc) :
    Shr s (parseBodyAndCheck cl cid cst s).2 := by
  unfold parseBodyAndCheck
  cases hr : parse_body cid cst s with
  | mk res s1 =>
    have h1 : Shr s s1 := by have := shr_parse_body cid cst s; rw [hr] at this; exact this
    cases res with
    | error e => exact h1
    | ok b =>
      simp only []
      cases hb : readByte s1 with
      | mk o s2 =>
        have h2 : Shr s1 s2 := by have := shr_readByte s1; rw [hb] at this; exact this
        cases o with
        | none => exact Shr.trans h1 h2
        | some x => exact Shr.trans h1 h2

theorem shr_hfld (n : String) (s : BSrc) (cl : Nat) : Shr s (hfld n s cl).2 := by
  unfold hfld
  cases hr : readInt4 s with
  | mk res s1 =>
    have h1 : Shr s s1 := by have := shr_readInt4 s; rw [hr] at this; exact this
    cases res with
    | ok v => exact h1
    | error e =>
      simp only []
      cases hv : validate_command_length cl with
      | error le => exact h1
      | ok u => exact h1

theorem shr_parseAfterLength (cl : Nat) (s : BSrc) :
    Shr s (parseAfterLength cl s).2 := by
  unfold parseAfterLength
  cases h1 : hfld "command_id" s cl with
  | mk r1 s1 =>
    have hs1 : Shr s s1 := by
      have := shr_hfld "command_id" s cl
      rw [h1] at this
      exact this
    cases r1 with
    | error e => exact hs1
    | ok cid =>
      simp only []
      cases h2 : hfld "command_status" s1 cl with
      | mk r2 s2 =>
        have hs2 : Shr s1 s2 := by
          have := shr_hfld "command_status" s1 cl
          rw [h2] at this
          exact this
        cases r2 with
        | error e => exact Shr.trans hs1 hs2
        | ok cst =>
          simp only []
          cases h3 : hfld "sequence_number" s2 cl with
          | mk r3 s3 =>
            have hs3 : Shr s2 s3 := by
              have := shr_hfld "sequence_number" s2 cl
              rw [h3] at this
              exact this
            cases r3 with
            | error e => exact Shr.trans hs1 (Shr.trans hs2 hs3)
            | ok seq =>
              simp only []
              cases hv : validate_command_length cl with
              | error e => exact Shr.trans hs1 (Shr.trans hs2 hs3)
              | ok u =>
                simp only []
                cases h5 : parseBodyAndCheck cl cid cst s3 with
                | mk r5 s4 =>
                  have hs4 : Shr s3 s4 := by
                    have := shr_parseBodyAndCheck cl cid cst s3
                    rw [h5] at this
                    exact this
                  cases r5 with
                  | error e =>
                    exact Shr.trans hs1 (Shr.trans hs2 (Shr.trans hs3 hs4))
                  | ok body =>
                    exact Shr.trans hs1 (Shr.trans hs2 (Shr.trans hs3 hs4))

/-- Remaining input of Pdu::parse once the command_length has been read. -/
theorem Pdu.parseWithRest_snd (bs : List Nat) (cl : Nat) (r : List Nat)
    (h : readU32 bs = some (cl, r)) :
    (Pdu.parseWithRest bs).2 = (parseAfterLength cl ⟨takeBudget cl, r⟩).2.rest := by
  unfold Pdu.parseWithRest
  rw [h]

/-- A successful command_length read leaves the tail of the input. -/
theorem readU32_drop (bs : List Nat) (cl : Nat) (r : List Nat)
    (h : readU32 bs = some (cl, r)) : bs.drop 4 = r := by
  match bs with
  | [] => exact absurd h (by simp [readU32])
  | [a] => exact absurd h (by simp [readU32])
  | [a, b] => exact absurd h (by simp [readU32])
  | [a, b, c] => exact absurd h (by simp [readU32])
  | a :: b :: c :: d :: t =>
    unfold readU32 at h
    simp only [Option.some.injEq, Prod.mk.injEq] at h
    rw [← h.2]
    rfl

/-- C10: whatever the outcome, once the declared command_length (at least 4) has been
read, Pdu::parse consumes at most command_length bytes in total from the source: the
remaining input is the original input with at most command_length bytes dropped, so
bytes of a following PDU are never consumed, the one-extra-byte probes of the
trailing-byte check and of SubmitSmRespPdu::parse included. -/
theorem c10_consumption_bound (bs : List Nat) (cl : Nat) (r : List Nat)
    (h : readU32 bs = some (cl, r)) (h4 : 4 ≤ cl) :
    ∃ k, k ≤ cl ∧ (Pdu.parseWithRest bs).2 = bs.drop k := by
  rw [Pdu.parseWithRest_snd bs cl r h]
  obtain ⟨k, hk, _, hrest⟩ := shr_parseAfterLength cl ⟨takeBudget cl, r⟩
  refine ⟨4 + k, ?_, ?_⟩
  · have := takeBudget_le cl h4
    simp only [] at hk
    omega
  · rw [hrest]
    have hd : bs.drop 4 = r := readU32_drop bs cl r h
    show r.drop k = bs.drop (4 + k)
    rw [← hd, List.drop_drop]

/-- Witness for C10: a header-only PDU declaring exactly eight bytes. -/
theorem c10_consumption_bound_witness :
    ∃ k, k ≤ 8 ∧ (Pdu.parseWithRest [0, 0, 0, 8, 0, 0, 0, 0]).2 =
      [0, 0, 0, 8, 0, 0, 0, 0].drop k :=
  c10_consumption_bound [0, 0, 0, 8, 0, 0, 0, 0] 8 [0, 0, 0, 0]
    (by decide) (by decide)

/-! Round-trip lemmas: each reader recovers what the writer emitted, consuming
exactly its own bytes. -/

theorem toBytes4_length (n : Nat) : (toBytes4 n).length = 4 := rfl

theorem cOctetRead_emit_x (maxLen : Nat) (v t : List Nat)
    (hlen : v.length + 1 ≤ maxLen) (hv : ∀ x ∈ v, 0 < x ∧ x < 128) :
    cOctetRead maxLen ⟨(v ++ 0 :: t).length, v ++ 0 :: t⟩ = (.ok v, ⟨t.length, t⟩) := by
  have hb : v.length + 1 ≤ (v ++ 0 :: t).length := by simp
  have h := cOctetRead_emit maxLen v (v ++ 0 :: t).length t hlen hb hv
  rw [h, show (v ++ 0 :: t).length - (v.length + 1) = t.length from by simp; omega]

theorem readInt1_emit_x (x : Nat) (t : List Nat) :
    readInt1 ⟨(x :: t).length, x :: t⟩ = (.ok x, ⟨t.length, t⟩) := by
  have h := readInt1_emit x t (x :: t).length (by simp)
  rw [h, show (x :: t).length - 1 = t.length from by simp]

theorem octetRead_emit_fin (l : List Nat) :
    octetRead l.length ⟨l.length, l⟩ = (.ok l, ⟨0, []⟩) := by
  have h := octetRead_emit l [] l.length (Nat.le_refl _)
  rw [List.append_nil] at h
  rw [h, Nat.sub_self]

/-- A well-formed submit_sm body parses back from its own serialization, consuming
the whole sub-view. -/
theorem submit_sm_parse_write (b : SubmitSmPdu) (cst : Nat)
    (h : PduBody.wf (.submitSm b) = true) :
    SubmitSmPdu.parse cst ⟨b.write.length, b.write⟩ = (.ok b, ⟨0, []⟩) := by
  obtain ⟨⟨v1⟩, i1, i2, ⟨v2⟩, i3, i4, ⟨v3⟩, i5, i6, i7, ⟨v4⟩, ⟨v5⟩, i8, i9, i10,
    i11, msg⟩ := b
  simp only [PduBody.wf, COctetString.wf, Bool.and_eq_true, decide_eq_true_eq,
    List.all_eq_true, and_assoc] at h
  obtain ⟨hl1, ha1, hi1, hi2, hl2, ha2, hi3, hi4, hl3, ha3, hi5, hi6, hi7, hl4,
    ha4, hl5, ha5, hi8, hi9, hi10, hi11, hml, hmb⟩ := h
  simp only [SubmitSmPdu.write, COctetString.write, int1Bytes]
  rw [Nat.mod_eq_of_lt hi1, Nat.mod_eq_of_lt hi2, Nat.mod_eq_of_lt hi3,
    Nat.mod_eq_of_lt hi4, Nat.mod_eq_of_lt hi5, Nat.mod_eq_of_lt hi6,
    Nat.mod_eq_of_lt hi7, Nat.mod_eq_of_lt hi8, Nat.mod_eq_of_lt hi9,
    Nat.mod_eq_of_lt hi10, Nat.mod_eq_of_lt hi11, Nat.mod_eq_of_lt hml]
  simp only [List.append_assoc, List.cons_append, List.singleton_append,
    List.nil_append]
  unfold SubmitSmPdu.parse
  rw [cOctetRead_emit_x 6 v1 _ hl1 ha1]
  simp only [fld_ok, pstep_ok]
  rw [readInt1_emit_x i1]
  simp only [fld_ok, pstep_ok]
  rw [readInt1_emit_x i2]
  simp only [fld_ok, pstep_ok]
  rw [cOctetRead_emit_x 21 v2 _ hl2 ha2]
  simp only [fld_ok, pstep_ok]
  rw [readInt1_emit_x i3]
  simp only [fld_ok, pstep_ok]
  rw [readInt1_emit_x i4]
  simp only [fld_ok, pstep_ok]
  rw [cOctetRead_emit_x 21 v3 _ hl3 ha3]
  simp only [fld_ok, pstep_ok]
  rw [readInt1_emit_x i5]
  simp only [fld_ok, pstep_ok]
  rw [readInt1_emit_x i6]
  simp only [fld_ok, pstep_ok]
  rw [readInt1_emit_x i7]
  simp only [fld_ok, pstep_ok]
  rw [cOctetRead_emit_x 17 v4 _ hl4 ha4]
  simp only [fld_ok, pstep_ok]
  rw [cOctetRead_emit_x 17 v5 _ hl5 ha5]
  simp only [fld_ok, pstep_ok]
  rw [readInt1_emit_x i8]
  simp only [fld_ok, pstep_ok]
  rw [readInt1_emit_x i9]
  simp only [fld_ok, pstep_ok]
  rw [readInt1_emit_x i10]
  simp only [fld_ok, pstep_ok]
  rw [readInt1_emit_x i11]
  simp only [fld_ok, pstep_ok]
  rw [readInt1_emit_x msg.length]
  simp only [fld_ok, pstep_ok]
  rw [octetRead_emit_fin msg]
  simp only [fld_ok, pstep_ok]

/-- The submit_sm body dispatch arm recovers a well-formed body from its bytes. -/
theorem parse_body_submit_sm (b : SubmitSmPdu) (cst : Nat)
    (h : PduBody.wf (.submitSm b) = true) :
    parse_body SUBMIT_SM cst ⟨b.write.length, b.write⟩ =
      (.ok (.submitSm b), ⟨0, []⟩) := by
  unfold parse_body
  rw [if_neg (by decide), if_neg (by decide),
    if_pos (show SUBMIT_SM = 0x00000004 from rfl), submit_sm_parse_write b cst h]
  rfl

/-- The bind_transmitter_resp dispatch arm recovers a present system_id from its
bytes under a zero command_status. -/
theorem parse_body_btr_resp_some (c : COctetString) (h : c.wf 16 = true) :
    parse_body BIND_TRANSMITTER_RESP 0 ⟨(c.value ++ [0]).length, c.value ++ [0]⟩ =
      (.ok (.bindTransmitterResp ⟨some c⟩), ⟨0, []⟩) := by
  simp only [COctetString.wf, Bool.and_eq_true, decide_eq_true_eq,
    List.all_eq_true] at h
  obtain ⟨hlen, hv⟩ := h
  unfold parse_body
  rw [if_neg (by decide), if_pos (show BIND_TRANSMITTER_RESP = 0x80000002 from rfl)]
  unfold BindTransmitterRespPdu.parse
  rw [if_pos rfl, cOctetRead_emit_x 16 c.value [] hlen fun x hx =>
    ⟨(hv x hx).1, (hv x hx).2⟩]
  rfl

/-- The bind_transmitter_resp dispatch arm accepts an empty body under a nonzero
command_status. -/
theorem parse_body_btr_resp_none (cst : Nat) (h : cst ≠ 0) :
    parse_body BIND_TRANSMITTER_RESP cst ⟨0, []⟩ =
      (.ok (.bindTransmitterResp ⟨none⟩), ⟨0, []⟩) := by
  unfold parse_body
  rw [if_neg (by decide), if_pos (show BIND_TRANSMITTER_RESP = 0x80000002 from rfl)]
  unfold BindTransmitterRespPdu.parse
  rw [if_neg h, readByte_zero]
  rfl

/-- A PDU bitstream produced by Pdu::write parses to the expected value whenever the
body dispatch succeeds on exactly the body bytes. -/
theorem parse_write_ok (cid cst seq : Nat) (bodyBytes : List Nat) (b : PduBody)
    (hcid : cid < 4294967296) (hcst : cst < 4294967296) (hseq : seq < 4294967296)
    (hL : bodyBytes.length ≤ 69984)
    (hbody : parse_body cid cst ⟨bodyBytes.length, bodyBytes⟩ = (.ok b, ⟨0, []⟩)) :
    Pdu.parse (toBytes4
        ((toBytes4 cid ++ toBytes4 cst ++ toBytes4 seq ++ bodyBytes).length + 4) ++
      (toBytes4 cid ++ toBytes4 cst ++ toBytes4 seq ++ bodyBytes)) =
      .ok ⟨cid, cst, seq, b⟩ := by
  have hbuf : (toBytes4 cid ++ toBytes4 cst ++ toBytes4 seq ++ bodyBytes).length =
      12 + bodyBytes.length := by
    simp only [List.length_append, toBytes4_length]
  rw [hbuf]
  have hr := readU32_append (12 + bodyBytes.length + 4)
    (toBytes4 cid ++ toBytes4 cst ++ toBytes4 seq ++ bodyBytes) (by omega)
  rw [Pdu.parse_eq _ _ _ hr]
  have htb : takeBudget (12 + bodyBytes.length + 4) = 12 + bodyBytes.length := by
    rw [takeBudget_eq (12 + bodyBytes.length + 4) (by omega) (by omega)]
    omega
  rw [htb]
  unfold parseAfterLength
  simp only [List.append_assoc]
  rw [hfld_ok _ _ _ _ _ (readInt4_emit cid
    (toBytes4 cst ++ (toBytes4 seq ++ bodyBytes)) (12 + bodyBytes.length)
    (by omega) hcid)]
  simp only []
  rw [hfld_ok _ _ _ _ _ (readInt4_emit cst (toBytes4 seq ++ bodyBytes)
    (12 + bodyBytes.length - 4) (by omega) hcst)]
  simp only []
  rw [hfld_ok _ _ _ _ _ (readInt4_emit seq bodyBytes
    (12 + bodyBytes.length - 4 - 4) (by omega) hseq)]
  simp only []
  rw [validate_ok _ (by omega) (by omega)]
  simp only []
  rw [show 12 + bodyBytes.length - 4 - 4 - 4 = bodyBytes.length from by omega]
  unfold parseBodyAndCheck
  rw [hbody]
  simp only []
  rw [readByte_zero]

/-- Total written size equals the emitted command_length for any buffer whose length
plus 4 stays in u32 range. -/
theorem write_length_eq (buf : List Nat) (hN : buf.length + 4 < 4294967296) :
    (toBytes4 (buf.length + 4) ++ buf).length =
      u32At (toBytes4 (buf.length + 4) ++ buf) := by
  rw [u32At_append (buf.length + 4) buf hN]
  simp only [List.length_append, toBytes4_length]
  omega

/-- A well-formed submit_sm body serializes into a bounded buffer. -/
theorem submit_sm_write_len_le (b : SubmitSmPdu)
    (h : PduBody.wf (.submitSm b) = true) : b.write.length ≤ 400 := by
  obtain ⟨⟨v1⟩, i1, i2, ⟨v2⟩, i3, i4, ⟨v3⟩, i5, i6, i7, ⟨v4⟩, ⟨v5⟩, i8, i9, i10,
    i11, msg⟩ := b
  simp only [PduBody.wf, COctetString.wf, Bool.and_eq_true, decide_eq_true_eq,
    List.all_eq_true, and_assoc] at h
  simp only [SubmitSmPdu.write, COctetString.write, int1Bytes, List.length_append,
    List.length_cons, List.length_nil]
  omega

/-- C1 counterexample: the generic_nack convenience value is valid and its body
serializes, yet parsing the written bytes does not return the value: the body
dispatcher has no arm for the generic_nack command id and fails with
UnknownCommandId. -/
theorem c1_generic_nack_roundtrip_fails :
    (Pdu.new_generic_nack_error 7 1).valid = true ∧
    Pdu.write (Pdu.new_generic_nack_error 7 1) =
      some [0, 0, 0, 16, 128, 0, 0, 0, 0, 0, 0, 7, 0, 0, 0, 1] ∧
    Pdu.parse [0, 0, 0, 16, 128, 0, 0, 0, 0, 0, 0, 7, 0, 0, 0, 1] ≠
      .ok (Pdu.new_generic_nack_error 7 1) ∧
    Pdu.parse [0, 0, 0, 16, 128, 0, 0, 0, 0, 0, 0, 7, 0, 0, 0, 1] =
      .error ⟨.unknownCommandId, some 2147483648, some 7, some 1, none⟩ :=
  ⟨by decide, by decide, by decide, by decide⟩

/-- C1 amended: for every valid Pdu value whose body serializes successfully, whose
command_id matches its body variant and is not the generic_nack id (the one writable
id the dispatcher cannot parse), and whose command_status is zero exactly when the
optional response field is present, writing then parsing returns the same value, and
the emitted command_length, the intermediate buffer length plus 4, equals the total
number of bytes written. -/
theorem c1_roundtrip_amended (p : Pdu) (bs : List Nat)
    (hv : p.valid = true) (hc : p.consistent = true)
    (hs : p.statusBodyConsistent = true) (hng : p.command_id ≠ GENERIC_NACK)
    (hw : Pdu.write p = some bs) :
    Pdu.parse bs = .ok p ∧ bs.length = u32At bs := by
  obtain ⟨cid, cst, seq, body⟩ := p
  simp only [Pdu.valid, Bool.and_eq_true, decide_eq_true_eq, and_assoc] at hv
  obtain ⟨hbw, hcid, hcst, hseq⟩ := hv
  cases body with
  | bindTransmitter b => simp [Pdu.write, PduBody.write] at hw
  | submitSmResp b => simp [Pdu.write, PduBody.write] at hw
  | genericNack b =>
    simp only [Pdu.consistent, PduBody.commandIdOf, decide_eq_true_eq] at hc
    exact absurd hc hng
  | bindTransmitterResp b =>
    simp only [Pdu.consistent, PduBody.commandIdOf, decide_eq_true_eq] at hc
    subst hc
    obtain ⟨so⟩ := b
    cases so with
    | some c =>
      simp only [Pdu.statusBodyConsistent] at hs
      simp at hs
      subst hs
      simp only [Pdu.write, PduBody.write, BindTransmitterRespPdu.write,
        COctetString.write, Option.some.injEq] at hw
      subst hw
      have hbw16 : c.wf 16 = true := hbw
      have hc16 : c.value.length + 1 ≤ 16 := by
        simp only [COctetString.wf, Bool.and_eq_true, decide_eq_true_eq,
          List.all_eq_true] at hbw16
        exact hbw16.1
      constructor
      · exact parse_write_ok BIND_TRANSMITTER_RESP 0 seq (c.value ++ [0])
          (.bindTransmitterResp ⟨some c⟩) hcid hcst hseq
          (by simp only [List.length_append, List.length_cons, List.length_nil]
              omega)
          (parse_body_btr_resp_some c hbw16)
      · exact write_length_eq _ (by
          simp only [List.length_append, List.length_cons, List.length_nil,
            toBytes4_length]
          omega)
    | none =>
      simp only [Pdu.statusBodyConsistent] at hs
      simp at hs
      simp only [Pdu.write, PduBody.write, BindTransmitterRespPdu.write,
        Option.some.injEq] at hw
      subst hw
      constructor
      · have h0 := parse_write_ok BIND_TRANSMITTER_RESP cst seq []
          (.bindTransmitterResp ⟨none⟩) hcid hcst hseq (by simp)
          (parse_body_btr_resp_none cst hs)
        rw [List.append_nil] at h0
        exact h0
      · have h0 := write_length_eq (toBytes4 BIND_TRANSMITTER_RESP ++ toBytes4 cst ++
          toBytes4 seq ++ []) (by
            simp only [List.length_append, List.length_nil, toBytes4_length]
            omega)
        rw [List.append_nil] at h0
        exact h0
  | submitSm b =>
    simp only [Pdu.consistent, PduBody.commandIdOf, decide_eq_true_eq] at hc
    subst hc
    simp only [Pdu.write, PduBody.write, Option.some.injEq] at hw
    subst hw
    have hlen := submit_sm_write_len_le b hbw
    constructor
    · exact parse_write_ok SUBMIT_SM cst seq b.write (.submitSm b) hcid hcst hseq
        (by omega) (parse_body_submit_sm b cst hbw)
    · exact write_length_eq _ (by
        simp only [List.length_append, toBytes4_length]
        omega)

/-- Witness for C1 amended: a bind_transmitter_resp error response round-trips. -/
theorem c1_roundtrip_amended_witness :
    Pdu.parse [0, 0, 0, 16, 128, 0, 0, 2, 0, 0, 0, 5, 0, 0, 0, 2] =
      .ok (Pdu.new_bind_transmitter_resp_error 5 2) ∧
    ([0, 0, 0, 16, 128, 0, 0, 2, 0, 0, 0, 5, 0, 0, 0, 2] : List Nat).length =
      u32At [0, 0, 0, 16, 128, 0, 0, 2, 0, 0, 0, 5, 0, 0, 0, 2] :=
  c1_roundtrip_amended (Pdu.new_bind_transmitter_resp_error 5 2)
    [0, 0, 0, 16, 128, 0, 0, 2, 0, 0, 0, 5, 0, 0, 0, 2]
    (by decide) (by decide) (by decide) (by decide) (by decide)

end Smpp
